import Mathlib

set_option maxRecDepth 8000

/-!
# Verification of the meerkat_api completeness engine

Shallow embedding of `meerkat_api/resources/completeness.py` (classes
`Completeness` and `NonReporting`).  Calendar dates are modelled as integers
counting days, with day `0` a Monday, so that `d % 7` is Python's
`datetime.weekday()` (0 = Monday .. 6 = Sunday).  Variable counts are
modelled as rationals so that pandas' sums and means are exact.
-/

namespace Meerkat

/-- Location levels, as used by the `sublevels` dict in `Completeness.get`. -/
inductive Level
  | country
  | region
  | district
  | clinic
deriving DecidableEq, Repr

/-- A row of the `locations` table (fields used by the engine). -/
structure Location where
  id : Nat
  parent_location : Nat
  level : Level
  start_date : Int
  case_report : Bool
deriving DecidableEq, Repr

/-- `locs[i]` on the dict produced by `get_locations`: first row with this id. -/
def lookupLoc (locs : List Location) (i : Nat) : Option Location :=
  locs.find? (fun l => l.id == i)

/-- Modelled from the spec: `is_child` from `meerkat_api.util` (only its
callers are under `src/`).  Per §2/§4.2 of the spec the hierarchy is a tree
walked via parent links; a location is a child of `parent` when `parent`
occurs on its parent chain (a location counts as a child of itself).  Fuel
bounds the walk so the function is total on arbitrary inputs. -/
def isChildFuel (locs : List Location) : Nat → Nat → Nat → Bool
  | 0, _, _ => false
  | fuel + 1, parent, child =>
    if child == parent then true
    else
      match lookupLoc locs child with
      | none => false
      | some l => isChildFuel locs fuel parent l.parent_location

/-- Modelled from the spec: subtree membership in the location hierarchy. -/
def isChild (locs : List Location) (parent child : Nat) : Bool :=
  isChildFuel locs (locs.length + 1) parent child

/-- Modelled from the spec: `get_children` from `meerkat_api.util` (not under
`src/`).  Per §4.3/§4.5 it returns "all clinics under location" with
`case_report` set: every location of clinic level with the `case_report`
flag whose parent chain passes through `parent`. -/
def get_children (parent : Nat) (locs : List Location) : List Nat :=
  (locs.filter
    (fun l => l.case_report && (l.level == Level.clinic) && isChild locs parent l.id)).map
    (fun l => l.id)

/-! ## Epi-week calendar -/

/-- Python `weekday()` for a day number (day 0 is a Monday). -/
def weekdayOf (d : Int) : Int := d % 7

/-- The left label of the pandas `W-XXX` bin containing day `d`, where the
anchor weekday is `a % 7` (bins are right-closed: label `w` covers days
`w + 1 .. w + 7`).  This is the greatest anchor day strictly below `d`. -/
def bucketLabel (a d : Int) : Int := (d - 1) - ((d - 1 - a) % 7)

/-- `pd.date_range(start, stop, freq="W-XXX")` with anchor weekday `a % 7`:
all anchor days `w` with `start ≤ w ≤ stop`, ascending. -/
def dateRangeW (a start stop : Int) : List Int :=
  let first := start + (a - start) % 7
  (List.range (((stop - first) / 7 + 1).toNat)).map (fun k : Nat => first + 7 * (k : Int))

/-- `pd.date_range(start, stop)` at day frequency: all days in `[start, stop]`. -/
def allDays (start stop : Int) : List Int :=
  (List.range ((stop - start + 1).toNat)).map (fun k : Nat => start + (k : Int))

/-! ## Records -/

/-- A row of the data-frame read in `Completeness.get`: a record of the `Data`
table that carries the queried variable, with that variable's count. -/
structure Row where
  country : Nat
  region : Nat
  district : Nat
  clinic : Nat
  date : Int
  value : Rat
deriving DecidableEq, Repr

/-- The SQL filter of `Completeness.get`: the record's country, region,
district or clinic equals the queried location id. -/
def locMatches (location : Nat) (r : Row) : Bool :=
  r.country == location || r.region == location ||
    r.district == location || r.clinic == location

/-- The `drop_duplicates` subset: `["region", "district", "clinic", "date",
variable]`.  The last entry is the column holding the variable's count, so
the count value is part of the key. -/
def dedupKey (r : Row) : Nat × Nat × Nat × Int × Rat :=
  (r.region, r.district, r.clinic, r.date, r.value)

/-- `drop_duplicates` keeping the first row for every key already seen. -/
def dedupAux : List Row → List (Nat × Nat × Nat × Int × Rat) → List Row
  | [], _ => []
  | r :: rest, seen =>
    if dedupKey r ∈ seen then dedupAux rest seen
    else r :: dedupAux rest (dedupKey r :: seen)

/-- `data.drop_duplicates(subset=["region", "district", "clinic", "date", variable])`. -/
def drop_duplicates (l : List Row) : List Row := dedupAux l []

/-! ## Generic list helpers (pandas `sort_index` / index deduplication / mean) -/

/-- Insert into a sorted list. -/
def insSorted {α : Type} [LinearOrder α] (x : α) : List α → List α
  | [] => [x]
  | y :: ys => if x ≤ y then x :: y :: ys else y :: insSorted x ys

/-- Insertion sort (models pandas `sort_index`). -/
def sortList {α : Type} [LinearOrder α] : List α → List α
  | [] => []
  | x :: xs => insSorted x (sortList xs)

/-- Remove adjacent duplicates (on a sorted list: the distinct keys of a
pandas group-by). -/
def dedupAdj {α : Type} [DecidableEq α] : List α → List α
  | [] => []
  | [x] => [x]
  | x :: y :: rest =>
    if x = y then dedupAdj (y :: rest) else x :: dedupAdj (y :: rest)

/-- Sorted list of distinct keys. -/
def sortedDedup {α : Type} [LinearOrder α] (l : List α) : List α :=
  dedupAdj (sortList l)

/-- pandas `Series.mean`: sum divided by length. -/
def meanQ (l : List Rat) : Rat := l.sum / (l.length : Rat)

/-- `index[-2:]`: the last two elements (or fewer). -/
def lastTwo {α : Type} (l : List α) : List α := l.drop (l.length - 2)

/-! ## The `Completeness.get` pipeline

The request parameters together with the ambient values read inside the
handler.  `begining` is `epi_week_start_date(today.year)` (supplied by
`meerkat_abacus`, an external collaborator per §1 of the spec), so the
anchor weekday `epi_year_weekday` is `begining % 7`.  `npw` is
`int(number_per_week)`.  `weekend` is the result of `weekend.split(",")`
when a weekend string was supplied: each token is recorded as `some k` when
the token is exactly the decimal string of a weekday index `k ∈ [0,6]`
(so that it can compare equal to Python's `str(i)`), and as `none` for any
other token, which compares equal to no `str(i)`. -/
structure Query where
  locs : List Location
  today : Int
  begining : Int
  npw : Int
  weekend : Option (List (Option Nat))
  location : Nat

/-- `epi_year_weekday = epi_week_start_date(today.year).weekday()`. -/
def anchor (q : Query) : Int := weekdayOf q.begining

/-- Lines 84-87: if today is the start of an epi week, exclude the current
epi week by ending the window yesterday. -/
def end_d (q : Query) : Int :=
  if weekdayOf q.today = anchor q then q.today - 1 else q.today

/-- The `sublevels` dict. -/
def sublevelOf : Level → Option Level
  | .country => some .region
  | .region => some .district
  | .district => some .clinic
  | .clinic => none

/-- The SQL query restricted to rows matching the location filter. -/
def filterRows (q : Query) (rows : List Row) : List Row :=
  rows.filter (locMatches q.location)

/-- Lines 103-105 / 155-156: clip a start date to the epi-year start. -/
def windowStart (beg sd : Int) : Int := if sd < beg then beg else sd

/-- Lines 96-99: sublocations of the queried location at the sub-level. -/
def sublocations (q : Query) (sub : Level) : List Nat :=
  (q.locs.filter (fun l => l.parent_location == q.location && l.level == sub)).map
    (fun l => l.id)

/-- Week labels of a clinic's reporting window (lines 103-106). -/
def clinicDates (q : Query) (c : Nat) : List Int :=
  match lookupLoc q.locs c with
  | none => []
  | some l => dateRangeW (anchor q) (windowStart q.begining l.start_date) (end_d q)

/-- Lines 100-110: the dense (sublocation, clinic, week) index. -/
def tuples (q : Query) (sub : Level) : List (Nat × Nat × Int) :=
  (sublocations q sub).flatMap (fun name =>
    (get_children name q.locs).flatMap (fun c =>
      (clinicDates q c).map (fun w => (name, c, w))))

/-- The data-frame column used as the group-by sub-level key. -/
def levelCol : Level → Row → Nat
  | .country, r => r.country
  | .region, r => r.region
  | .district, r => r.district
  | .clinic, r => r.clinic

/-- The deduplicated rows falling into one cell of the dense index: same
sub-level key, same clinic, and binned by `TimeGrouper` to the cell's week
label (right-closed weekly bins, left labels). -/
def rowsAt (q : Query) (sub : Level) (data : List Row) (t : Nat × Nat × Int) :
    List Row :=
  data.filter (fun r =>
    levelCol sub r == t.1 && r.clinic == t.2.1 &&
      bucketLabel (anchor q) r.date == t.2.2)

/-- Line 119: `completeness[completeness > number_per_week] = number_per_week`. -/
def cap (n : Int) (s : Rat) : Rat := if (n : Rat) < s then (n : Rat) else s

/-- One entry of the reindexed, zero-filled, capped grid (lines 112-119). -/
def gridVal (q : Query) (sub : Level) (data : List Row) (t : Nat × Nat × Int) :
    Rat :=
  cap q.npw ((rowsAt q sub data t).map Row.value).sum

/-- The sorted distinct week labels of the whole grid (the index of
`location_completeness_per_week`). -/
def weekDates (q : Query) (sub : Level) : List Int :=
  sortedDedup ((tuples q sub).map (fun t => t.2.2))

/-- Line 126: the last two week labels of the grid. -/
def last2 (q : Query) (sub : Level) : List Int := lastTwo (weekDates q sub)

/-- Line 121: per-week mean of the grid over every (sublocation, clinic) cell
present at that week. -/
def locMeanAt (q : Query) (sub : Level) (data : List Row) (w : Int) : Rat :=
  meanQ (((tuples q sub).filter (fun t => t.2.2 == w)).map (gridVal q sub data))

/-- The sorted distinct week labels present for one sublocation. -/
def slDates (q : Query) (sub : Level) (sl : Nat) : List Int :=
  sortedDedup (((tuples q sub).filter (fun t => t.1 == sl)).map (fun t => t.2.2))

/-- Line 122: per-(sublocation, week) mean of the grid over the clinics of
that sublocation present at that week. -/
def slMeanAt (q : Query) (sub : Level) (data : List Row) (sl : Nat) (w : Int) :
    Rat :=
  meanQ (((tuples q sub).filter (fun t => t.1 == sl && t.2.2 == w)).map
    (gridVal q sub data))

/-- Lines 129-130: a sublocation's score — the mean over its last-two-week
labels of its per-week means, as a percentage of the expected count. -/
def subScore (q : Query) (sub : Level) (data : List Row) (sl : Nat) : Rat :=
  meanQ (((slDates q sub sl).filter (fun w => (last2 q sub).contains w)).map
    (slMeanAt q sub data sl)) / (q.npw : Rat) * 100

/-- Line 133: the queried location's own score. -/
def locScore (q : Query) (sub : Level) (data : List Row) : Rat :=
  meanQ ((last2 q sub).map (locMeanAt q sub data)) / (q.npw : Rat) * 100

/-- The sorted distinct sublocation keys present in the grid index. -/
def subsInIndex (q : Query) (sub : Level) : List Nat :=
  sortedDedup ((tuples q sub).map (fun t => t.1))

/-- Sublocations that have at least one week label among the last two (the
group keys of the score group-by on lines 129-130). -/
def subsWithLast2 (q : Query) (sub : Level) : List Nat :=
  (subsInIndex q sub).filter
    (fun sl => !((slDates q sub sl).filter (fun w => (last2 q sub).contains w)).isEmpty)

/-- The sorted distinct clinic keys present in the grid index. -/
def clinicsInIndex (q : Query) (sub : Level) : List Nat :=
  sortedDedup ((tuples q sub).map (fun t => t.2.1))

/-- The grid entries of one clinic restricted to the last two week labels. -/
def clinicEntriesLast2 (q : Query) (sub : Level) (data : List Row) (c : Nat) :
    List Rat :=
  ((tuples q sub).filter (fun t => t.2.1 == c && (last2 q sub).contains t.2.2)).map
    (gridVal q sub data)

/-- Lines 149-150: per-clinic score over the last two weeks. -/
def clinicScoreVal (q : Query) (sub : Level) (data : List Row) (c : Nat) : Rat :=
  meanQ (clinicEntriesLast2 q sub data c) / (q.npw : Rat) * 100

/-- Clinics with at least one grid entry in the last two weeks (the group
keys of the group-by on line 150). -/
def clinicsWithLast2 (q : Query) (sub : Level) (data : List Row) : List Nat :=
  (clinicsInIndex q sub).filter
    (fun c => !(clinicEntriesLast2 q sub data c).isEmpty)

/-- The `score` series of the sub-level branch, as an ordered association
list: sublocation scores (sorted keys) then the queried location's score. -/
def scoreList (q : Query) (sub : Level) (data : List Row) : List (Nat × Rat) :=
  ((subsWithLast2 q sub).map (fun sl => (sl, subScore q sub data sl))) ++
    [(q.location, locScore q sub data)]

/-- The `timeline` dict of the sub-level branch (lines 136-147). -/
def timelineList (q : Query) (sub : Level) (data : List Row) :
    List (Nat × List (Int × Rat)) :=
  ((subsInIndex q sub).map (fun sl =>
      (sl, (slDates q sub sl).map (fun w => (w, slMeanAt q sub data sl w))))) ++
    [(q.location, (weekDates q sub).map (fun w => (w, locMeanAt q sub data w)))]

/-- The `clinic_scores` series (lines 149-150). -/
def clinicScoreList (q : Query) (sub : Level) (data : List Row) :
    List (Nat × Rat) :=
  (clinicsWithLast2 q sub data).map (fun c => (c, clinicScoreVal q sub data c))

/-! ### The clinic-level (`else`) branch -/

/-- Line 157: the clinic branch's week labels, from the clipped start date. -/
def cDates (q : Query) (sd : Int) : List Int :=
  dateRangeW (anchor q) (windowStart q.begining sd) (end_d q)

/-- Lines 158-160: weekly sums of all deduplicated rows, with no capping. -/
def weekSumAll (q : Query) (data : List Row) (w : Int) : Rat :=
  ((data.filter (fun r => bucketLabel (anchor q) r.date == w)).map Row.value).sum

/-- Lines 166-168: the clinic branch's score — mean of the (uncapped) weekly
sums over the last two week labels, as a percentage. -/
def clinicBranchScore (q : Query) (sd : Int) (data : List Row) : Rat :=
  meanQ ((lastTwo (cDates q sd)).map (weekSumAll q data)) / (q.npw : Rat) * 100

/-- Lines 173-181: the weekday indices kept in `weekday_mask`.  With no
weekend string the mask is `"Mon Tue Wed Thu Fri"`; otherwise weekday `i` is
kept iff no token of the split weekend string equals `str(i)` (the
comparison of the int `i` with the string tokens never succeeds). -/
def includedWeekdays (q : Query) : List Nat :=
  match q.weekend with
  | none => [0, 1, 2, 3, 4]
  | some toks => (List.range 7).filter (fun i => !(toks.contains (some i)))

/-- Line 184: `pd.date_range(begining, end_d, freq=CustomBusinessDay(weekmask))`:
the days of the window whose weekday is in the mask. -/
def expectedDays (q : Query) (sd : Int) : List Int :=
  (allDays (windowStart q.begining sd) (end_d q)).filter
    (fun d => (includedWeekdays q).contains (weekdayOf d).toNat)

/-- Lines 186-190: expected days on which no (deduplicated) row is dated. -/
def datesNotReported (q : Query) (sd : Int) (data : List Row) : List Int :=
  (expectedDays q sd).filter (fun d => !((data.map Row.date).contains d))

/-! ### Assembling the response -/

/-- Errors that escape the handler: a failed dict lookup (`KeyError`), or a
pandas constructor rejecting its argument (`CustomBusinessDay` with an empty
week mask, `MultiIndex.from_tuples` with an empty tuple list). -/
inductive CompErr
  | keyError
  | valueError
deriving DecidableEq, Repr

/-- The JSON payload of a non-empty response. -/
structure CompResult where
  score : List (Nat × Rat)
  timeline : List (Nat × List (Int × Rat))
  clinic_score : List (Nat × Rat)
  dates_not_reported : List Int
deriving DecidableEq, Repr

/-- The handler's response: the bare `{}` returned when no rows match, or the
full payload. -/
inductive CompResponse
  | empty
  | result (r : CompResult)
deriving DecidableEq, Repr

deriving instance DecidableEq for Except

/-- The `score` mapping of a response (`{}` has an empty one). -/
def respScore : CompResponse → List (Nat × Rat)
  | .empty => []
  | .result r => r.score

/-- The `timeline` mapping of a response (`{}` has an empty one). -/
def respTimeline : CompResponse → List (Nat × List (Int × Rat))
  | .empty => []
  | .result r => r.timeline

/-- The sub-level branch (lines 93-151).  `MultiIndex.from_tuples` raises on
an empty tuple list; otherwise the branch always produces a payload. -/
def sublevelResult (q : Query) (sub : Level) (data : List Row) :
    Except CompErr CompResponse :=
  if tuples q sub = [] then .error .valueError
  else
    .ok (.result
      { score := scoreList q sub data
        timeline := timelineList q sub data
        clinic_score := clinicScoreList q sub data
        dates_not_reported := [] })

/-- The clinic-level branch (lines 153-191).  `CustomBusinessDay` raises on an
empty week mask; otherwise the branch always produces a payload. -/
def clinicResult (q : Query) (sd : Int) (data : List Row) :
    Except CompErr CompResponse :=
  if includedWeekdays q = [] then .error .valueError
  else
    .ok (.result
      { score := [(q.location, clinicBranchScore q sd data)]
        timeline :=
          [(q.location, (cDates q sd).map (fun w => (w, weekSumAll q data w)))]
        clinic_score := []
        dates_not_reported := datesNotReported q sd data })

/-- The computation performed on the deduplicated data, by branch. -/
def completeness_core (q : Query) (l : Location) (data : List Row) :
    Except CompErr CompResponse :=
  match sublevelOf l.level with
  | some sub => sublevelResult q sub data
  | none => clinicResult q l.start_date data

/-- `Completeness.get`: look the location up (a `KeyError` escapes if it is
unknown), fetch and filter the rows, return `{}` when none match, otherwise
deduplicate and run the branch for the location's level. -/
def completeness_get (q : Query) (rows : List Row) :
    Except CompErr CompResponse :=
  match lookupLoc q.locs q.location with
  | none => .error .keyError
  | some l =>
    let data0 := filterRows q rows
    if data0.isEmpty then .ok .empty
    else completeness_core q l (drop_duplicates data0)

/-! ## `NonReporting.get` -/

/-- A row of the `Data.clinic` query in `NonReporting.get`: a record carrying
the queried variable (no location filter is applied). -/
structure NRRow where
  clinic : Nat
  date : Int
deriving DecidableEq, Repr

/-- `NonReporting.get`.  `cws` is `epi_week_start(epi_week["year"],
epi_week["epi_week"])` — modelled from the spec: the `EpiWeek` resource and
`epi_week_start` are not under `src/`; per §4.1/§4.5 of the spec `cws` is the
start day of the epi week containing today (the in-progress week), so its
weekday is the anchor weekday.  The handler keeps every clinic under
`location` that has no record dated strictly after `cws - 7 * numWeeks`. -/
def nonReporting (locs : List Location) (location : Nat) (numWeeks : Int)
    (cws : Int) (rows : List NRRow) : List Nat :=
  let clinics := get_children location locs
  let startDate := cws - 7 * numWeeks
  let reporting := (rows.filter (fun r => startDate < r.date)).map (fun r => r.clinic)
  clinics.filter (fun c => !(reporting.contains c))

/-! ## Response extractors -/

/-- The `score` mapping of a handler outcome (empty for `{}` or an error). -/
def exceptScore : Except CompErr CompResponse → List (Nat × Rat)
  | .ok resp => respScore resp
  | .error _ => []

/-- The payload of a successful, non-empty outcome (a blank payload otherwise). -/
def extractResult : Except CompErr CompResponse → CompResult
  | .ok (.result r) => r
  | _ => ⟨[], [], [], []⟩

/-! ## Statements written from the spec's words (for comparison with the code) -/

/-- The score formula claim C1 states for a clinic-level query: the mean, over
the last two week buckets, of the CAPPED weekly sums, divided by the expected
count and multiplied by 100. -/
def claimedCappedClinicScore (q : Query) (sd : Int) (data : List Row) : Rat :=
  meanQ ((lastTwo (cDates q sd)).map (fun w => cap q.npw (weekSumAll q data w))) /
    (q.npw : Rat) * 100

/-- The facility-level non-reporting query as claim C6 states it: descendant
clinics with zero matching records inside the window of `numWeeks` epi-weeks
ending at the most recently completed epi-week, i.e. with no record dated in
`[cws - 7 * numWeeks, cws)`. -/
def claimedNonReporting (locs : List Location) (location : Nat) (numWeeks : Int)
    (cws : Int) (rows : List NRRow) : List Nat :=
  let clinics := get_children location locs
  let startDate := cws - 7 * numWeeks
  let reporting :=
    (rows.filter (fun r => startDate ≤ r.date && r.date < cws)).map (fun r => r.clinic)
  clinics.filter (fun c => !(reporting.contains c))

/-! ## Concrete instances used by counterexamples and witnesses -/

/-- A small hierarchy: country 1 ⊃ region 2 ⊃ district 3 ⊃ clinics 4, 5. -/
def locsT : List Location :=
  [⟨1, 0, .country, 0, false⟩,
   ⟨2, 1, .region, 0, false⟩,
   ⟨3, 2, .district, 0, false⟩,
   ⟨4, 3, .clinic, 0, true⟩,
   ⟨5, 3, .clinic, 0, true⟩]

/-- A clinic-level query: epi year starts on day 700 (a Monday), today is day
730 (a Wednesday), 5 expected records per week. -/
def qClin : Query := ⟨locsT, 730, 700, 5, none, 4⟩

/-- Two records for clinic 4: raw weekly sums 3 (bucket 721) and 7 (bucket 728). -/
def rows37 : List Row := [⟨1, 2, 3, 4, 722, 3⟩, ⟨1, 2, 3, 4, 729, 7⟩]

/-- The same query asked at district 3 (one level above the clinics). -/
def qDist : Query := ⟨locsT, 730, 700, 5, none, 3⟩

/-- Two records for clinic 4 on the same day carrying different counts. -/
def rowV1 : Row := ⟨1, 2, 3, 4, 722, 1⟩

/-- Same dedup key as `rowV1` except for the count value. -/
def rowV2 : Row := ⟨1, 2, 3, 4, 722, 2⟩

/-- A query whose `today` (day 735, a Monday) falls on the anchor weekday. -/
def qAnchor : Query := ⟨locsT, 735, 700, 5, none, 4⟩

/-- A record dated before the epi-year start (its bucket is outside the grid). -/
def rowOld : Row := ⟨1, 2, 3, 4, 650, 1⟩

/-- A record dated exactly on `qAnchor.today`, the first day of the epi week
in progress. -/
def rowToday : Row := ⟨1, 2, 3, 4, 735, 5⟩

/-- A clinic-level query with weekend mask {5, 6} over the 10-weekday window
day 700 .. day 711. -/
def qWknd : Query := ⟨locsT, 711, 700, 5, some [some 5, some 6], 4⟩

/-- Rows that match no location of `locsT`. -/
def rowsFar : List Row := [⟨9, 9, 9, 9, 650, 1⟩]

/-- A query with `number_per_week = 0` and a malformed weekend token. -/
def qBad : Query := ⟨locsT, 730, 700, 0, some [none], 4⟩

/-- A query naming a location id absent from the hierarchy. -/
def qUnknown : Query := ⟨locsT, 730, 700, 5, none, 99⟩

/-- A single non-reporting-query record for clinic 4, dated on day 714 — the
start of the current (in-progress) epi week. -/
def rowsNR : List NRRow := [⟨4, 714⟩]

/-! ## Helper lemmas -/

theorem mem_insSorted {α : Type} [LinearOrder α] {a x : α} {l : List α} :
    a ∈ insSorted x l ↔ a = x ∨ a ∈ l := by
  induction l with
  | nil => simp [insSorted]
  | cons y ys ih =>
    simp only [insSorted]
    split
    · simp [List.mem_cons]
    · simp only [List.mem_cons, ih]
      tauto

theorem mem_sortList {α : Type} [LinearOrder α] {a : α} {l : List α} :
    a ∈ sortList l ↔ a ∈ l := by
  induction l with
  | nil => simp [sortList]
  | cons x xs ih => simp [sortList, mem_insSorted, ih]

theorem mem_dedupAdj {α : Type} [DecidableEq α] {a : α} {l : List α} :
    a ∈ dedupAdj l ↔ a ∈ l := by
  induction l with
  | nil => simp [dedupAdj]
  | cons x tail ih =>
    cases tail with
    | nil => simp [dedupAdj]
    | cons y rest =>
      simp only [dedupAdj]
      split
      · next h =>
        subst h
        rw [ih]
        simp only [List.mem_cons]
        tauto
      · simp only [List.mem_cons] at ih ⊢
        rw [ih]

theorem mem_sortedDedup {α : Type} [LinearOrder α] {a : α} {l : List α} :
    a ∈ sortedDedup l ↔ a ∈ l := by
  rw [sortedDedup, mem_dedupAdj, mem_sortList]

theorem mem_allDays {s e d : Int} : d ∈ allDays s e ↔ s ≤ d ∧ d ≤ e := by
  simp only [allDays, List.mem_map, List.mem_range]
  constructor
  · rintro ⟨k, hk, rfl⟩
    rw [Int.lt_toNat] at hk
    omega
  · intro h
    refine ⟨(d - s).toNat, ?_, ?_⟩
    · rw [Int.lt_toNat, Int.toNat_of_nonneg (by omega)]
      omega
    · rw [Int.toNat_of_nonneg (by omega)]
      omega

theorem mem_dateRangeW {a s e w : Int} :
    w ∈ dateRangeW a s e ↔ s ≤ w ∧ w ≤ e ∧ w % 7 = a % 7 := by
  simp only [dateRangeW, List.mem_map, List.mem_range]
  constructor
  · rintro ⟨k, hk, rfl⟩
    rw [Int.lt_toNat] at hk
    omega
  · intro h
    refine ⟨((w - (s + (a - s) % 7)) / 7).toNat, ?_, ?_⟩
    · rw [Int.lt_toNat, Int.toNat_of_nonneg (by omega)]
      omega
    · rw [Int.toNat_of_nonneg (by omega)]
      omega

theorem mem_tuples {q : Query} {sub : Level} {sl c : Nat} {w : Int} :
    (sl, c, w) ∈ tuples q sub ↔
      sl ∈ sublocations q sub ∧ c ∈ get_children sl q.locs ∧
        w ∈ clinicDates q c := by
  simp only [tuples, List.mem_flatMap, List.mem_map]
  constructor
  · rintro ⟨name, hn, c', hc', d, hd, heq⟩
    obtain ⟨rfl, rfl, rfl⟩ := Prod.mk.injEq .. ▸ heq
    exact ⟨hn, hc', hd⟩
  · rintro ⟨h1, h2, h3⟩
    exact ⟨sl, h1, c, h2, w, h3, rfl⟩

theorem clinicDates_le_end {q : Query} {c : Nat} {w : Int}
    (h : w ∈ clinicDates q c) : w ≤ end_d q := by
  unfold clinicDates at h
  split at h
  · simp at h
  · exact (mem_dateRangeW.mp h).2.1

theorem tuples_date_le_end {q : Query} {sub : Level} {t : Nat × Nat × Int}
    (h : t ∈ tuples q sub) : t.2.2 ≤ end_d q := by
  obtain ⟨sl, c, w⟩ := t
  exact clinicDates_le_end (mem_tuples.mp h).2.2

theorem sorted_allDays {s e : Int} : List.Pairwise (· < ·) (allDays s e) := by
  unfold allDays
  apply List.Pairwise.map (fun k : Nat => s + (k : Int))
    (fun a b h => by have hab : a < b := h; dsimp only; omega)
  exact List.pairwise_lt_range _

theorem dedupAux_cons_self (r : Row) (t : List Row)
    (seen : List (Nat × Nat × Nat × Int × Rat)) :
    dedupAux (r :: r :: t) seen = dedupAux (r :: t) seen := by
  simp only [dedupAux]
  split
  · next h => simp [dedupAux, h]
  · next h => simp [dedupAux, h]

theorem weekDates_le_end {q : Query} {sub : Level} {w : Int}
    (h : w ∈ weekDates q sub) : w ≤ end_d q := by
  rw [weekDates, mem_sortedDedup] at h
  obtain ⟨t, ht, rfl⟩ := List.mem_map.mp h
  exact tuples_date_le_end ht

theorem slDates_le_end {q : Query} {sub : Level} {sl : Nat} {w : Int}
    (h : w ∈ slDates q sub sl) : w ≤ end_d q := by
  rw [slDates, mem_sortedDedup] at h
  obtain ⟨t, ht, rfl⟩ := List.mem_map.mp h
  exact tuples_date_le_end (List.mem_filter.mp ht).1

theorem completeness_get_core {q : Query} {rows : List Row} {l : Location}
    (hl : lookupLoc q.locs q.location = some l)
    (hne : filterRows q rows ≠ []) :
    completeness_get q rows =
      completeness_core q l (drop_duplicates (filterRows q rows)) := by
  unfold completeness_get
  rw [hl]
  dsimp only
  rw [if_neg (by simpa [List.isEmpty_iff] using hne)]

theorem get_clinic_branch {q : Query} {rows : List Row} {l : Location}
    (hl : lookupLoc q.locs q.location = some l)
    (hlev : l.level = Level.clinic)
    (hne : filterRows q rows ≠ []) :
    completeness_get q rows =
      clinicResult q l.start_date (drop_duplicates (filterRows q rows)) := by
  rw [completeness_get_core hl hne]
  unfold completeness_core
  rw [hlev]
  rfl

theorem get_sublevel_branch {q : Query} {rows : List Row} {l : Location}
    {sub : Level}
    (hl : lookupLoc q.locs q.location = some l)
    (hsub : sublevelOf l.level = some sub)
    (hne : filterRows q rows ≠ []) :
    completeness_get q rows =
      sublevelResult q sub (drop_duplicates (filterRows q rows)) := by
  rw [completeness_get_core hl hne]
  unfold completeness_core
  rw [hsub]

theorem clinicResult_ok {q : Query} {sd : Int} {data : List Row}
    (hmask : includedWeekdays q ≠ []) :
    clinicResult q sd data =
      .ok (.result
        { score := [(q.location, clinicBranchScore q sd data)]
          timeline :=
            [(q.location, (cDates q sd).map (fun w => (w, weekSumAll q data w)))]
          clinic_score := []
          dates_not_reported := datesNotReported q sd data }) := by
  unfold clinicResult
  rw [if_neg hmask]

theorem sublevelResult_ok {q : Query} {sub : Level} {data : List Row}
    (ht : tuples q sub ≠ []) :
    sublevelResult q sub data =
      .ok (.result
        { score := scoreList q sub data
          timeline := timelineList q sub data
          clinic_score := clinicScoreList q sub data
          dates_not_reported := [] }) := by
  unfold sublevelResult
  rw [if_neg ht]

theorem mem_clinicDates {q : Query} {c : Nat} {w : Int} :
    w ∈ clinicDates q c ↔
      ∃ lc, lookupLoc q.locs c = some lc ∧
        windowStart q.begining lc.start_date ≤ w ∧ w ≤ end_d q ∧
          weekdayOf w = anchor q := by
  unfold clinicDates
  cases hl : lookupLoc q.locs c
  · simp
  · next lc =>
    simp only [mem_dateRangeW, Option.some.injEq]
    constructor
    · rintro ⟨h1, h2, h3⟩
      refine ⟨lc, rfl, h1, h2, ?_⟩
      simp only [anchor, weekdayOf] at h3 ⊢
      omega
    · rintro ⟨lc', heq, h1, h2, h3⟩
      cases heq
      refine ⟨h1, h2, ?_⟩
      simp only [anchor, weekdayOf] at h3 ⊢
      omega

theorem timeline_labels_le {q : Query} {rows : List Row} {res : CompResult}
    (h : completeness_get q rows = .ok (.result res)) :
    ∀ p ∈ res.timeline, ∀ x ∈ p.2, x.1 ≤ end_d q := by
  intro p hp x hx
  unfold completeness_get at h
  cases hl : lookupLoc q.locs q.location <;> rw [hl] at h
  · exact absurd h (by simp)
  next l =>
    dsimp only at h
    by_cases he : (filterRows q rows).isEmpty
    · rw [if_pos he] at h
      exact absurd h (by simp)
    · rw [if_neg he] at h
      unfold completeness_core at h
      cases hsub : sublevelOf l.level <;> rw [hsub] at h <;> dsimp only at h
      · unfold clinicResult at h
        by_cases hmask : includedWeekdays q = []
        · rw [if_pos hmask] at h
          exact absurd h (by simp)
        · rw [if_neg hmask] at h
          rw [Except.ok.injEq, CompResponse.result.injEq] at h
          subst h
          simp only [List.mem_singleton] at hp
          subst hp
          dsimp only at hx
          obtain ⟨w, hw, rfl⟩ := List.mem_map.mp hx
          exact (mem_dateRangeW.mp hw).2.1
      · next sub =>
        unfold sublevelResult at h
        by_cases htup : tuples q sub = []
        · rw [if_pos htup] at h
          exact absurd h (by simp)
        · rw [if_neg htup] at h
          rw [Except.ok.injEq, CompResponse.result.injEq] at h
          subst h
          dsimp only at hp
          unfold timelineList at hp
          rcases List.mem_append.mp hp with hp1 | hp2
          · obtain ⟨sl, hsl, rfl⟩ := List.mem_map.mp hp1
            dsimp only at hx
            obtain ⟨w, hw, rfl⟩ := List.mem_map.mp hx
            exact slDates_le_end hw
          · simp only [List.mem_singleton] at hp2
            subst hp2
            dsimp only at hx
            obtain ⟨w, hw, rfl⟩ := List.mem_map.mp hx
            exact weekDates_le_end hw

/-! ## The claims -/

/-- Claim C1, counterexample.  The claim's score formula — the mean of the
CAPPED weekly sums over the last two buckets, over `expected_per_week`, × 100
— gives 80 on a clinic-level query with raw weekly sums 3 and 7 and
`expected_per_week = 5`, but the code's clinic-level branch never caps, so it
reports 100. -/
theorem claim1_counterexample :
    exceptScore (completeness_get qClin rows37) = [(4, (100 : Rat))] ∧
      claimedCappedClinicScore qClin 0 (drop_duplicates (filterRows qClin rows37)) = 80 ∧
      ((100 : Rat) ≠ 80) := by
  refine ⟨?_, ?_, ?_⟩ <;> with_unfolding_all decide

/-- Claim C1, amended: for a query one level above clinics the reported score
of every sublocation — and of the queried location itself — is the mean of
its per-week averaged capped weekly counts over its last-two-week labels,
divided by `expected_per_week` and multiplied by 100; for a clinic-level
query the weekly sums are NOT capped: the score is the mean of the raw
weekly sums over the last two buckets (a single bucket when only one
exists), divided by `expected_per_week` and multiplied by 100. -/
theorem claim1_amended (q : Query) (rows : List Row) (l : Location)
    (hl : lookupLoc q.locs q.location = some l)
    (hne : filterRows q rows ≠ []) :
    (l.level = Level.clinic → includedWeekdays q ≠ [] →
      exceptScore (completeness_get q rows) =
        [(q.location,
          meanQ ((lastTwo (cDates q l.start_date)).map
              (weekSumAll q (drop_duplicates (filterRows q rows)))) /
            (q.npw : Rat) * 100)]) ∧
    (∀ sub, sublevelOf l.level = some sub → tuples q sub ≠ [] →
      (∀ sl ∈ subsWithLast2 q sub,
        (sl, subScore q sub (drop_duplicates (filterRows q rows)) sl) ∈
          exceptScore (completeness_get q rows)) ∧
      (q.location, locScore q sub (drop_duplicates (filterRows q rows))) ∈
        exceptScore (completeness_get q rows)) := by
  constructor
  · intro hlev hmask
    rw [get_clinic_branch hl hlev hne, clinicResult_ok hmask]
    rfl
  · intro sub hsub ht
    rw [get_sublevel_branch hl hsub hne, sublevelResult_ok ht]
    constructor
    · intro sl hsl
      show _ ∈ scoreList q sub _
      unfold scoreList
      exact List.mem_append_left _ (List.mem_map_of_mem _ hsl)
    · show _ ∈ scoreList q sub _
      unfold scoreList
      exact List.mem_append_right _ (List.mem_singleton_self _)

/-- Claim C1, witness: on the district-level query over clinics 4 and 5 with
raw weekly sums 3 and 7 for clinic 4, the amended theorem yields clinic 4's
reported (capped) score of 80. -/
theorem claim1_witness :
    filterRows qDist rows37 ≠ [] ∧
      ((4 : Nat), (80 : Rat)) ∈ exceptScore (completeness_get qDist rows37) := by
  refine ⟨by decide, ?_⟩
  have h := (claim1_amended qDist rows37 ⟨3, 2, .district, 0, false⟩ (by decide)
      (by decide)).2 Level.clinic rfl (by with_unfolding_all decide)
  have h4 := h.1 4 (by with_unfolding_all decide)
  have hv : subScore qDist Level.clinic
      (drop_duplicates (filterRows qDist rows37)) 4 = 80 := by
    with_unfolding_all decide
  rw [hv] at h4
  exact h4

/-- Claim C2: every entry of the dense capped grid lies in
`[0, expected_per_week]` (given nonnegative record counts and a nonnegative
expected count), and a cell of the dense index that no record falls into
carries an explicit zero. -/
theorem claim2_grid_bounds (q : Query) (sub : Level) (data : List Row)
    (t : Nat × Nat × Int)
    (hn : 0 ≤ q.npw)
    (hv : ∀ r ∈ data, 0 ≤ r.value)
    (ht : t ∈ tuples q sub) :
    (0 ≤ gridVal q sub data t ∧ gridVal q sub data t ≤ (q.npw : Rat)) ∧
      (rowsAt q sub data t = [] → gridVal q sub data t = 0) := by
  have hn' : (0 : Rat) ≤ (q.npw : Rat) := by exact_mod_cast hn
  have hsum : 0 ≤ ((rowsAt q sub data t).map Row.value).sum := by
    apply List.sum_nonneg
    intro x hx
    obtain ⟨r, hr, rfl⟩ := List.mem_map.mp hx
    exact hv r (List.mem_filter.mp hr).1
  refine ⟨⟨?_, ?_⟩, ?_⟩
  · unfold gridVal cap
    split
    · exact hn'
    · exact hsum
  · unfold gridVal cap
    split
    · exact le_refl _
    · next hlt => exact le_of_not_lt hlt
  · intro h0
    unfold gridVal
    rw [h0]
    simp only [List.map_nil, List.sum_nil]
    unfold cap
    rw [if_neg (not_lt.mpr hn')]

/-- Claim C2, witness: the cell (district 3 grouping key 4, clinic 4, week
721) of the district-level grid holds a value between 0 and 5. -/
theorem claim2_witness :
    (0 : Int) ≤ qDist.npw ∧
      ((4 : Nat), (4 : Nat), (721 : Int)) ∈ tuples qDist Level.clinic ∧
      0 ≤ gridVal qDist Level.clinic
          (drop_duplicates (filterRows qDist rows37)) (4, 4, 721) ∧
      gridVal qDist Level.clinic
          (drop_duplicates (filterRows qDist rows37)) (4, 4, 721) ≤
        (qDist.npw : Rat) := by
  have h := claim2_grid_bounds qDist Level.clinic
    (drop_duplicates (filterRows qDist rows37)) (4, 4, 721)
    (by decide) (by with_unfolding_all decide) (by decide)
  exact ⟨by decide, by decide, h.1.1, h.1.2⟩

/-- Claim C3, counterexample.  Two records that agree on (region, district,
clinic, date) but differ in their count (1 vs 2) are BOTH kept — the
`drop_duplicates` subset includes the variable's count column — and both are
summed: the clinic-level score is 30, not the 10 obtained from the first
record alone. -/
theorem claim3_counterexample :
    drop_duplicates [rowV1, rowV2] = [rowV1, rowV2] ∧
      drop_duplicates [rowV1, rowV2] ≠ [rowV1] ∧
      exceptScore (completeness_get qClin [rowV1, rowV2]) = [(4, (30 : Rat))] ∧
      exceptScore (completeness_get qClin [rowV1]) = [(4, (10 : Rat))] ∧
      ((30 : Rat) ≠ 10) := by
  refine ⟨?_, ?_, ?_, ?_, ?_⟩ <;> with_unfolding_all decide

/-- Claim C3, amended: deduplication keys on (region, district, clinic, date,
count value), so only fully identical rows collapse; in particular feeding an
identical record twice yields exactly the same response as feeding it once. -/
theorem claim3_amended (q : Query) (r : Row) (rest : List Row) :
    completeness_get q (r :: r :: rest) = completeness_get q (r :: rest) := by
  unfold completeness_get
  cases hl : lookupLoc q.locs q.location
  · rfl
  · dsimp only
    by_cases hm : locMatches q.location r = true
    · unfold filterRows
      simp only [List.filter_cons_of_pos hm]
      simp only [List.isEmpty_cons, Bool.false_eq_true, if_false]
      unfold drop_duplicates
      rw [dedupAux_cons_self]
    · unfold filterRows
      simp only [List.filter_cons_of_neg hm]

/-- Claim C4, counterexample.  With `today = 735` falling on the anchor
weekday, a record dated exactly `today` — inside the in-progress epi week —
is binned into the right-closed bucket labelled `today - 7`, which is in the
timeline and among the last two weeks, so it raises the score from 0 to 50:
the bucket containing today IS an input to the score. -/
theorem claim4_counterexample :
    weekdayOf qAnchor.today = anchor qAnchor ∧
      exceptScore (completeness_get qAnchor [rowOld, rowToday]) = [(4, (50 : Rat))] ∧
      exceptScore (completeness_get qAnchor [rowOld]) = [(4, (0 : Rat))] ∧
      ((50 : Rat) ≠ 0) := by
  refine ⟨?_, ?_, ?_, ?_⟩ <;> with_unfolding_all decide

/-- Claim C4, amended: when today falls on the anchor weekday the effective
end date is yesterday and no timeline label reaches today — the bucket
LABELLED with today's date is excluded — but records dated exactly today
still land in the right-closed bucket labelled `today - 7` and so feed the
timeline values and scores; on any other weekday the end date is today. -/
theorem claim4_amended (q : Query) (rows : List Row) :
    (weekdayOf q.today = anchor q →
      end_d q = q.today - 1 ∧
        bucketLabel (anchor q) q.today = q.today - 7 ∧
        ∀ res, completeness_get q rows = .ok (.result res) →
          ∀ p ∈ res.timeline, ∀ x ∈ p.2, x.1 ≤ q.today - 1) ∧
    (weekdayOf q.today ≠ anchor q → end_d q = q.today) := by
  constructor
  · intro hw
    have he : end_d q = q.today - 1 := by
      unfold end_d
      rw [if_pos hw]
    refine ⟨he, ?_, ?_⟩
    · unfold weekdayOf anchor weekdayOf at hw
      unfold bucketLabel anchor weekdayOf
      omega
    · intro res hres p hp x hx
      have := timeline_labels_le hres p hp x hx
      rwa [he] at this
  · intro hw
    unfold end_d
    rw [if_neg hw]

/-- Claim C4, witness: on the concrete anchor-day query, the end date is day
734 and today's bucket label is 728. -/
theorem claim4_witness :
    weekdayOf qAnchor.today = anchor qAnchor ∧
      end_d qAnchor = qAnchor.today - 1 ∧
      bucketLabel (anchor qAnchor) qAnchor.today = qAnchor.today - 7 :=
  ⟨by decide, ((claim4_amended qAnchor []).1 (by decide)).1,
    ((claim4_amended qAnchor []).1 (by decide)).2.1⟩

theorem completeness_get_of_empty {q : Query} {rows : List Row} {l : Location}
    (hl : lookupLoc q.locs q.location = some l)
    (h : filterRows q rows = []) :
    completeness_get q rows = .ok .empty := by
  unfold completeness_get
  rw [hl]
  dsimp only
  rw [if_pos (by simp [h])]

theorem mem_expectedDays {q : Query} {sd d : Int} :
    d ∈ expectedDays q sd ↔
      windowStart q.begining sd ≤ d ∧ d ≤ end_d q ∧
        (includedWeekdays q).contains (weekdayOf d).toNat = true := by
  unfold expectedDays
  rw [List.mem_filter, mem_allDays]
  tauto

theorem mem_datesNotReported {q : Query} {sd d : Int} {data : List Row} :
    d ∈ datesNotReported q sd data ↔
      windowStart q.begining sd ≤ d ∧ d ≤ end_d q ∧
        (includedWeekdays q).contains (weekdayOf d).toNat = true ∧
        d ∉ data.map Row.date := by
  unfold datesNotReported
  rw [List.mem_filter, mem_expectedDays]
  simp only [List.elem_eq_mem, Bool.not_eq_eq_eq_not, Bool.not_true,
    decide_eq_false_iff_not]
  tauto

theorem includedWeekdays_default {q : Query} (h : q.weekend = none) {k : Nat}
    (hk : k < 7) :
    ((includedWeekdays q).contains k = true ↔ k ∉ ([5, 6] : List Nat)) := by
  unfold includedWeekdays
  rw [h]
  simp only [List.elem_eq_mem, decide_eq_true_eq, List.mem_cons,
    List.not_mem_nil, or_false, List.mem_singleton]
  omega

theorem includedWeekdays_tokens {q : Query} {ws : List Nat}
    (h : q.weekend = some (ws.map some)) {k : Nat} :
    ((includedWeekdays q).contains k = true ↔ k < 7 ∧ k ∉ ws) := by
  unfold includedWeekdays
  rw [h]
  simp [List.mem_filter, List.mem_range, List.elem_eq_mem]

/-- Claim C5: for a clinic-level query, `dates_not_reported` consists exactly
of the days of the clinic's effective window whose weekday is outside the
weekend set ({5, 6} when no mask is supplied) and on which no deduplicated
record is dated; only distinct record dates matter, and the list is sorted
ascending. -/
theorem claim5_dates_not_reported (q : Query) (rows : List Row) (l : Location)
    (res : CompResult) (ws : List Nat)
    (hl : lookupLoc q.locs q.location = some l)
    (hlev : l.level = Level.clinic)
    (hres : completeness_get q rows = .ok (.result res))
    (hw : (q.weekend = none ∧ ws = [5, 6]) ∨ q.weekend = some (ws.map some)) :
    (∀ d : Int, d ∈ res.dates_not_reported ↔
      (windowStart q.begining l.start_date ≤ d ∧ d ≤ end_d q ∧
        (weekdayOf d).toNat ∉ ws ∧
        d ∉ (drop_duplicates (filterRows q rows)).map Row.date)) ∧
      List.Pairwise (· < ·) res.dates_not_reported := by
  have hne : filterRows q rows ≠ [] := by
    intro h0
    rw [completeness_get_of_empty hl h0] at hres
    exact absurd hres (by simp)
  rw [get_clinic_branch hl hlev hne] at hres
  by_cases hmask : includedWeekdays q = []
  · rw [clinicResult] at hres
    rw [if_pos hmask] at hres
    exact absurd hres (by simp)
  · rw [clinicResult_ok hmask] at hres
    rw [Except.ok.injEq, CompResponse.result.injEq] at hres
    subst hres
    dsimp only
    constructor
    · intro d
      rw [mem_datesNotReported]
      have hk7 : (weekdayOf d).toNat < 7 := by
        unfold weekdayOf
        omega
      rcases hw with ⟨hw0, rfl⟩ | hw1
      · rw [includedWeekdays_default hw0 hk7]
      · rw [includedWeekdays_tokens hw1]
        constructor
        · rintro ⟨h1, h2, ⟨_, hnw⟩, h4⟩
          exact ⟨h1, h2, hnw, h4⟩
        · rintro ⟨h1, h2, hnw, h4⟩
          exact ⟨h1, h2, ⟨hk7, hnw⟩, h4⟩
    · unfold datesNotReported expectedDays
      apply List.Pairwise.sublist (List.filter_sublist _)
      apply List.Pairwise.sublist (List.filter_sublist _)
      exact sorted_allDays

/-- Claim C5, witness: weekend mask {5, 6}, a 10-weekday window (days 700-711)
and one record dated outside it yield exactly those 10 weekdays, sorted. -/
theorem claim5_witness :
    (extractResult (completeness_get qWknd [rowOld])).dates_not_reported =
      [700, 701, 702, 703, 704, 707, 708, 709, 710, 711] ∧
      List.Pairwise (· < ·)
        (extractResult (completeness_get qWknd [rowOld])).dates_not_reported := by
  constructor
  · with_unfolding_all decide
  · exact (claim5_dates_not_reported qWknd [rowOld] ⟨4, 3, .clinic, 0, true⟩
      (extractResult (completeness_get qWknd [rowOld])) [5, 6] (by decide) rfl
      (by with_unfolding_all decide) (Or.inr rfl)).2

/-- Claim C6, counterexample.  Clinic 4's only record is dated on day 714 —
the first day of the current, in-progress epi week, OUTSIDE the window of
`num_weeks = 2` complete epi-weeks [700, 714) — yet the code's filter
`date > start_date` has no upper bound, so clinic 4 is counted as reporting
and is missing from the returned list, where the claim requires it. -/
theorem claim6_counterexample :
    (4 : Nat) ∉ nonReporting locsT 3 2 714 rowsNR ∧
      (4 : Nat) ∈ claimedNonReporting locsT 3 2 714 rowsNR ∧
      nonReporting locsT 3 2 714 rowsNR = [5] ∧
      claimedNonReporting locsT 3 2 714 rowsNR = [4, 5] := by
  refine ⟨?_, ?_, ?_, ?_⟩ <;> decide

/-- Claim C6, amended: the non-reporting query returns exactly the descendant
clinics with no record dated strictly after the window start
`cws - 7 * num_weeks`; a record on the window's first day does not count as
reporting, while records after the window's end (the current incomplete week
or later) do. -/
theorem claim6_amended (locs : List Location) (location : Nat) (numWeeks : Int)
    (cws : Int) (rows : List NRRow) (c : Nat) :
    c ∈ nonReporting locs location numWeeks cws rows ↔
      c ∈ get_children location locs ∧
        ∀ r ∈ rows, r.clinic = c → r.date ≤ cws - 7 * numWeeks := by
  unfold nonReporting
  rw [List.mem_filter]
  simp only [List.elem_eq_mem, Bool.not_eq_eq_eq_not, Bool.not_true,
    decide_eq_false_iff_not, List.mem_map, List.mem_filter, not_exists, not_and,
    decide_eq_true_eq]
  constructor
  · rintro ⟨hc, hr⟩
    refine ⟨hc, fun r hrow hrc => ?_⟩
    by_cases hd : cws - 7 * numWeeks < r.date
    · exact absurd hrc (hr r ⟨hrow, hd⟩)
    · omega
  · rintro ⟨hc, hall⟩
    refine ⟨hc, fun r hpair hrc => ?_⟩
    have := hall r hpair.1 hrc
    omega

/-- Claim C7: the dense index contains the cell (sublocation, clinic, week
label) exactly when the clinic is a case-reporting clinic under that
sublocation of the query and the label is an anchor day within
[max(epi-year start, the clinic's own start date), the effective end date];
the same characterisation holds for the clinic-level branch's week labels,
and the start-clipping function is exactly `max`. -/
theorem claim7_window (q : Query) (sub : Level) (sl c : Nat) (w : Int) :
    ((sl, c, w) ∈ tuples q sub ↔
      sl ∈ sublocations q sub ∧ c ∈ get_children sl q.locs ∧
        ∃ lc, lookupLoc q.locs c = some lc ∧
          windowStart q.begining lc.start_date ≤ w ∧ w ≤ end_d q ∧
          weekdayOf w = anchor q) ∧
    (∀ sd, w ∈ cDates q sd ↔
      (windowStart q.begining sd ≤ w ∧ w ≤ end_d q ∧ weekdayOf w = anchor q)) ∧
    (∀ x : Int, windowStart q.begining x = max q.begining x) := by
  refine ⟨?_, ?_, ?_⟩
  · rw [mem_tuples, mem_clinicDates]
  · intro sd
    unfold cDates
    rw [mem_dateRangeW]
    constructor
    · rintro ⟨h1, h2, h3⟩
      refine ⟨h1, h2, ?_⟩
      simp only [anchor, weekdayOf] at h3 ⊢
      omega
    · rintro ⟨h1, h2, h3⟩
      refine ⟨h1, h2, ?_⟩
      simp only [anchor, weekdayOf] at h3 ⊢
      omega
  · intro x
    unfold windowStart
    rcases le_or_lt q.begining x with h | h
    · rw [if_neg (not_lt.mpr h), max_eq_right h]
    · rw [if_pos h, max_eq_left (le_of_lt h)]

/-- Claim C8: when no record carries the variable and matches the location
filter, the handler returns the empty `{}` response — whose score and
timeline mappings are empty — rather than an error. -/
theorem claim8_no_data (q : Query) (rows : List Row) (l : Location)
    (hl : lookupLoc q.locs q.location = some l)
    (hempty : filterRows q rows = []) :
    completeness_get q rows = .ok .empty ∧
      respScore CompResponse.empty = [] ∧
      respTimeline CompResponse.empty = [] :=
  ⟨completeness_get_of_empty hl hempty, rfl, rfl⟩

/-- Claim C8, witness: records that match no location of the hierarchy leave
the clinic-4 query with the empty response. -/
theorem claim8_witness :
    completeness_get qClin rowsFar = .ok .empty :=
  (claim8_no_data qClin rowsFar ⟨4, 3, .clinic, 0, true⟩ (by decide) (by decide)).1

/-- Claim C9, counterexample.  A query with `number_per_week = 0` (not
positive) and a malformed weekend token still computes a result: no
`InvalidQuery` error is surfaced. -/
theorem claim9_counterexample :
    qBad.npw ≤ 0 ∧ qBad.weekend = some [none] ∧
      (completeness_get qBad rows37).isOk = true := by
  refine ⟨by decide, rfl, ?_⟩
  with_unfolding_all decide

/-- Claim C9, amended: the handler errors exactly on lookup failure — an
unknown `location_id` raises a `KeyError` — while a non-positive
`expected_per_week` and malformed weekend tokens are accepted silently; the
only other failures are pandas constructor errors (a weekend mask covering
all seven weekdays on the clinic branch, or an empty dense index on the
sub-level branch). -/
theorem claim9_amended (q : Query) (rows : List Row) :
    (lookupLoc q.locs q.location = none →
      completeness_get q rows = .error .keyError) ∧
    (∀ l, lookupLoc q.locs q.location = some l →
      (l.level = Level.clinic → includedWeekdays q ≠ []) →
      (∀ sub, sublevelOf l.level = some sub → tuples q sub ≠ []) →
      (completeness_get q rows).isOk = true) := by
  constructor
  · intro h
    unfold completeness_get
    rw [h]
  · intro l hl hmask htup
    by_cases he : filterRows q rows = []
    · rw [completeness_get_of_empty hl he]
      rfl
    · cases hsub : sublevelOf l.level
      · have hlev : l.level = Level.clinic := by
          cases hLL : l.level <;> rw [hLL] at hsub <;> first | rfl | exact absurd hsub (by simp [sublevelOf])
        rw [get_clinic_branch hl hlev he, clinicResult_ok (hmask hlev)]
        rfl
      · next sub =>
        rw [get_sublevel_branch hl hsub he, sublevelResult_ok (htup sub hsub)]
        rfl

/-- Claim C9, witness: on the malformed query with a known location the
handler succeeds, and on the unknown-location query it errors. -/
theorem claim9_witness :
    (completeness_get qBad rows37).isOk = true ∧
      completeness_get qUnknown rows37 = .error .keyError :=
  ⟨(claim9_amended qBad rows37).2 ⟨4, 3, .clinic, 0, true⟩ (by decide)
      (fun _ => by decide) (fun sub hsub => nomatch hsub),
    (claim9_amended qUnknown rows37).1 (by decide)⟩

/-- Claim C10: every clinic id returned by the non-reporting query is a
case-reporting clinic of the hierarchy whose parent chain passes through the
queried location — never a clinic outside the queried subtree. -/
theorem claim10_descendants (locs : List Location) (location : Nat)
    (numWeeks cws : Int) (rows : List NRRow) (c : Nat)
    (hc : c ∈ nonReporting locs location numWeeks cws rows) :
    isChild locs location c = true ∧
      ∃ l ∈ locs, l.id = c ∧ l.level = Level.clinic ∧ l.case_report = true := by
  unfold nonReporting at hc
  have hc1 := (List.mem_filter.mp hc).1
  unfold get_children at hc1
  obtain ⟨l, hl, rfl⟩ := List.mem_map.mp hc1
  have hprop := (List.mem_filter.mp hl).2
  simp only [Bool.and_eq_true, beq_iff_eq] at hprop
  exact ⟨hprop.2, l, (List.mem_filter.mp hl).1, rfl, hprop.1.2, hprop.1.1⟩

/-- Claim C10, witness: clinic 5, returned for the district-3 query, is
indeed a descendant of district 3. -/
theorem claim10_witness :
    (5 : Nat) ∈ nonReporting locsT 3 2 714 rowsNR ∧ isChild locsT 3 5 = true :=
  ⟨by decide, (claim10_descendants locsT 3 2 714 rowsNR 5 (by decide)).1⟩

end Meerkat
